import Mathlib

/-!
Verification of the file-locking facade in src/cpp/core/FileLock.cpp
(rstudio). The C++ source is shallowly embedded: the process-wide static
configuration becomes a structure, the factory switch becomes a total
function returning Option (with none marking the undefined-behaviour
fall-through of a switch that has no default case), and the timer-driven
refresh scheduler becomes explicit state passing plus a trace function
over callback durations. Parts of the subsystem that the shown sources
only reference (the two concrete lock strategies and the configuration
setters) are modelled from the specification and marked as such in their
doc comments.
-/

namespace RStudioCore

/-! ## Data model: process-wide configuration (FileLock.cpp lines 26-28) -/

/-- Value of the enumerator FileLock::LOCKTYPE_ADVISORY. The C++ LockType
is an enumeration whose underlying integer can carry values outside the
declared enumerators, so the embedding keeps the underlying Nat. -/
def LOCKTYPE_ADVISORY : Nat := 0

/-- Value of the enumerator FileLock::LOCKTYPE_LINKBASED. -/
def LOCKTYPE_LINKBASED : Nat := 1

/-- Process-wide static members of FileLock: type_, timeoutInterval_ and
refreshRate_ (FileLock.cpp lines 26-28). Durations are in seconds. -/
structure FileLockConfig where
  lockType : Nat
  timeoutInterval : Nat
  refreshRate : Nat
deriving DecidableEq

/-- Initial values of the statics: LOCKTYPE_ADVISORY, 30 seconds timeout,
20 seconds refresh rate (FileLock.cpp lines 26-28). -/
def defaultConfig : FileLockConfig :=
  { lockType := LOCKTYPE_ADVISORY, timeoutInterval := 30, refreshRate := 20 }

/-- The two concrete strategies the factory can construct. -/
inductive LockImpl
  | advisoryFileLock
  | linkBasedFileLock
deriving DecidableEq

/-- FileLock::create (FileLock.cpp lines 30-37): a switch on the
process-wide lock type with a case for each declared enumerator and no
default case. A value outside the two cases falls off the end of the
non-void function, which is undefined behaviour: the embedding returns
none there, modelling that no value is produced. -/
def FileLock.create (cfg : FileLockConfig) : Option LockImpl :=
  if cfg.lockType = LOCKTYPE_ADVISORY then some LockImpl.advisoryFileLock
  else if cfg.lockType = LOCKTYPE_LINKBASED then some LockImpl.linkBasedFileLock
  else none

/-! ## Static refresh (FileLock.cpp lines 39-43) -/

/-- Observable effect state for the two strategy-level refresh routines:
how many times each has been invoked in the process. -/
structure RefreshCounters where
  advisoryRefreshCount : Nat
  linkBasedRefreshCount : Nat
deriving DecidableEq

/-- AdvisoryFileLock::refresh as observed by the facade: one invocation
of the advisory strategy's refresh logic. -/
def AdvisoryFileLock.refresh (c : RefreshCounters) : RefreshCounters :=
  { c with advisoryRefreshCount := c.advisoryRefreshCount + 1 }

/-- LinkBasedFileLock::refresh as observed by the facade: one invocation
of the link-based strategy's refresh logic. -/
def LinkBasedFileLock.refresh (c : RefreshCounters) : RefreshCounters :=
  { c with linkBasedRefreshCount := c.linkBasedRefreshCount + 1 }

/-- FileLock::refresh (FileLock.cpp lines 39-43): calls
AdvisoryFileLock::refresh and then LinkBasedFileLock::refresh,
unconditionally; it does not read the configured lock type. -/
def FileLock.refresh (c : RefreshCounters) : RefreshCounters :=
  LinkBasedFileLock.refresh (AdvisoryFileLock.refresh c)

/-! ## The periodic scheduler (FileLock.cpp lines 47-91) -/

/-- Outcome of one invocation of the refresh callback: it either returns
normally or raises (the C++ catch-all treats every raised value alike). -/
inductive TickResult
  | ok
  | err
deriving DecidableEq

/-- State of the deadline timer driving the periodic refresh: its current
expiry time (in seconds) and whether an async wait is pending (armed). -/
structure TimerState where
  expiresAt : Nat
  armed : Bool
deriving DecidableEq

/-- schedulePeriodicExecution (FileLock.cpp lines 47-76), as the state
transformation performed by one tick. The callback runs inside the try
block; if it raises, control jumps to the catch-all which swallows the
value, so the reschedule code after the callback is skipped and no
further wait is armed. If the callback returns, the timer expiry is
advanced to the previous expiry plus the interval; when that expiry
update reports an error the function logs and returns without arming,
otherwise it arms the next wait. -/
def schedulePeriodicExecution (interval : Nat) (cb : TickResult)
    (timerErr : Bool) (s : TimerState) : TimerState :=
  match cb with
  | TickResult.err => { s with armed := false }
  | TickResult.ok =>
      if timerErr then { s with armed := false }
      else { expiresAt := s.expiresAt + interval, armed := true }

/-- Execution trace of the periodic chain under the source's timing
discipline. Each entry of the input list is the duration of one callback
run; each entry of the output is that tick's (start, end) time. The tick
runs at its start time, the timer expiry is then advanced by interval
from its previous value (FileLock.cpp line 59: expires_at() + interval),
and the next wait, armed only after the callback returns, fires at that
expiry or at the moment the wait is placed, whichever is later. -/
def runTicks (interval : Nat) : List Nat → Nat → Nat → List (Nat × Nat)
  | [], _, _ => []
  | d :: ds, start, expiry =>
      (start, start + d) ::
        runTicks interval ds (max (expiry + interval) (start + d)) (expiry + interval)

/-- Definition following the words of the spec for comparison with
runTicks: under a re-arm-after-execute discipline each tick is scheduled
interval after the previous one completes, so the next start is the
previous end plus the interval. -/
def rearmAfterExecuteTicks (interval : Nat) : List Nat → Nat → List (Nat × Nat)
  | [], _ => []
  | d :: ds, start =>
      (start, start + d) :: rearmAfterExecuteTicks interval ds (start + d + interval)

/-- Process-wide scheduler state for FileLock::refreshPeriodically
(FileLock.cpp lines 80-91): the static s_isRefreshing guard, the number
of recurring refresh tasks ever installed, and whether a wait of the
periodic chain is currently pending. -/
structure RefreshSchedulerState where
  isRefreshing : Bool
  timersInstalled : Nat
  chainArmed : Bool
deriving DecidableEq

/-- FileLock::refreshPeriodically (FileLock.cpp lines 80-91): if the
static s_isRefreshing is already set the call returns immediately;
otherwise it sets the flag, constructs the static timer and invokes
schedulePeriodicExecution synchronously, which runs the first tick and
arms the chain exactly when that tick returns normally and the timer
expiry update succeeds. The flag is never cleared anywhere in the
source. -/
def FileLock.refreshPeriodically (firstTick : TickResult) (timerErr : Bool)
    (s : RefreshSchedulerState) : RefreshSchedulerState :=
  if s.isRefreshing then s
  else
    { isRefreshing := true
      timersInstalled := s.timersInstalled + 1
      chainArmed :=
        match firstTick with
        | TickResult.err => false
        | TickResult.ok => !timerErr }

/-- Events that can act on the process-wide scheduler state: a caller
invoking FileLock::refreshPeriodically, or the pending timer wait firing
and running one tick of schedulePeriodicExecution. A tick event has an
effect only while a wait is pending. -/
inductive SchedulerOp
  | callRefreshPeriodically (firstTick : TickResult) (timerErr : Bool)
  | timerFires (result : TickResult) (timerErr : Bool)

/-- Effect of one scheduler event on the process-wide state, following
the source: refreshPeriodically is guarded by s_isRefreshing, and a
firing tick re-arms the chain exactly when the callback returns normally
and the expiry update succeeds (FileLock.cpp lines 52-76). No event
clears the s_isRefreshing flag. -/
def applyOp (s : RefreshSchedulerState) : SchedulerOp → RefreshSchedulerState
  | SchedulerOp.callRefreshPeriodically r t => FileLock.refreshPeriodically r t s
  | SchedulerOp.timerFires r t =>
      if s.chainArmed then
        { s with chainArmed :=
            match r with
            | TickResult.err => false
            | TickResult.ok => !t }
      else s

/-- Folds a sequence of scheduler events over the process-wide state. -/
def applyOps (s : RefreshSchedulerState) (ops : List SchedulerOp) : RefreshSchedulerState :=
  ops.foldl applyOp s

/-! ## Spec-modelled parts: configuration construction and the
link-based acquire protocol (not present in the shown sources) -/

/-- Error taxonomy of the locking subsystem as given by the spec. -/
inductive LockError
  | alreadyLocked
  | lockLost
  | ioError
  | configurationError
deriving DecidableEq

/-- Modelled from the spec: the configuration-time constructor of the
lock timing parameters is not in the shown sources (FileLock.cpp shows
only the default values of the statics). Per the spec the invariant
RefreshRate < TimeoutInterval is enforced at configuration time and the
inverse is rejected with ConfigurationError. -/
def configureLockTiming (lockType refreshRate timeoutInterval : Nat) :
    Except LockError FileLockConfig :=
  if refreshRate < timeoutInterval then
    Except.ok { lockType := lockType, timeoutInterval := timeoutInterval,
                refreshRate := refreshRate }
  else
    Except.error LockError.configurationError

/-- On-disk evidence of a held link-based lock: the canonical lock file
holding the owner token and the last-refresh timestamp. -/
structure LockFileEvidence where
  ownerToken : Nat
  timestamp : Nat
deriving DecidableEq

/-- Result of one acquire attempt. -/
inductive AcquireResult
  | held
  | alreadyLocked
deriving DecidableEq

/-- Modelled from the spec: LinkBasedFileLock::acquire is not in the
shown sources. Per spec section 4.2 an attempt atomically hard-links a
staging file to the canonical lock-file name: success if the name is
free; if the name exists and its timestamp is older than the timeout
interval the stale file is removed and the link retried once, otherwise
the attempt fails with AlreadyLocked. The filesystem state for one path
is the optional canonical lock file; the staging file is private to the
caller and does not affect exclusion, so it is elided. -/
def linkBasedAcquire (timeoutInterval ownerToken now : Nat)
    (fs : Option LockFileEvidence) : AcquireResult × Option LockFileEvidence :=
  match fs with
  | none => (AcquireResult.held, some { ownerToken := ownerToken, timestamp := now })
  | some ev =>
      if timeoutInterval < now - ev.timestamp then
        (AcquireResult.held, some { ownerToken := ownerToken, timestamp := now })
      else
        (AcquireResult.alreadyLocked, some ev)

/-- Runs one acquire attempt per caller token, in the order of the list,
each attempt an atomic step against the shared filesystem state. Per
spec section 5 the atomic link operation is the sole arbiter between
racing callers, so an arbitrary interleaving of N concurrent attempts is
a sequence of atomic attempts in some order. -/
def acquireAll (timeoutInterval now : Nat) :
    List Nat → Option LockFileEvidence → List AcquireResult × Option LockFileEvidence
  | [], fs => ([], fs)
  | tok :: toks, fs =>
      let step := linkBasedAcquire timeoutInterval tok now fs
      let rest := acquireAll timeoutInterval now toks step.2
      (step.1 :: rest.1, rest.2)

/-! ## Helper lemmas -/

/-- Every tick emitted by runTicks starts at the start-time parameter it
was invoked with. -/
lemma runTicks_head_fst (interval : Nat) (ds : List Nat) (s e : Nat) (p : Nat × Nat)
    (hp : p ∈ (runTicks interval ds s e).head?) : p.1 = s := by
  cases ds with
  | nil => simp [runTicks] at hp
  | cons d ds =>
      simp [runTicks] at hp
      rw [← hp]

/-- Consecutive ticks of a runTicks trace never overlap: each tick starts
no earlier than the previous one ends, because the next wait is placed
only after the callback returns and fires no earlier than that moment. -/
lemma runTicks_chain (interval : Nat) (ds : List Nat) :
    ∀ (s e : Nat),
      List.Chain' (fun a b : Nat × Nat => a.2 ≤ b.1) (runTicks interval ds s e) := by
  induction ds with
  | nil => intro s e; simp [runTicks]
  | cons d ds ih =>
      intro s e
      have hstep :
          runTicks interval (d :: ds) s e =
            (s, s + d) ::
              runTicks interval ds (max (e + interval) (s + d)) (e + interval) := rfl
      rw [hstep, List.chain'_cons']
      refine ⟨?_, ih _ _⟩
      intro b hb
      have hb1 := runTicks_head_fst interval ds (max (e + interval) (s + d))
        (e + interval) b hb
      rw [hb1]
      exact le_max_right _ _

/-- Once the canonical lock file carries a timestamp equal to the current
time, every further attempt at that same time fails with AlreadyLocked
and leaves the evidence unchanged. -/
lemma acquireAll_locked (timeoutInterval now : Nat) (toks : List Nat) :
    ∀ (tok0 : Nat),
      acquireAll timeoutInterval now toks (some { ownerToken := tok0, timestamp := now }) =
        (List.replicate toks.length AcquireResult.alreadyLocked,
          some { ownerToken := tok0, timestamp := now }) := by
  induction toks with
  | nil => intro tok0; rfl
  | cons tok toks ih =>
      intro tok0
      have hattempt :
          linkBasedAcquire timeoutInterval tok now
              (some { ownerToken := tok0, timestamp := now }) =
            (AcquireResult.alreadyLocked,
              some { ownerToken := tok0, timestamp := now }) := by
        simp [linkBasedAcquire]
      simp [acquireAll, hattempt, ih, List.replicate_succ]

/-- While s_isRefreshing is set and no chain wait is pending, no scheduler
event changes the process-wide state: refreshPeriodically returns at the
guard and a timer event has nothing to fire. -/
lemma applyOp_frozen (s : RefreshSchedulerState) (op : SchedulerOp)
    (hr : s.isRefreshing = true) (hc : s.chainArmed = false) :
    applyOp s op = s := by
  cases op with
  | callRefreshPeriodically r t => simp [applyOp, FileLock.refreshPeriodically, hr]
  | timerFires r t => simp [applyOp, hc]

/-! ## The claims -/

/-- C1: for every valid path, at most one successful acquire can be
outstanding at a time across any number of concurrent callers: when N
callers concurrently attempt acquire on the same fresh path, their
attempts interleave as a sequence of atomic link operations and exactly
one caller receives Held. Modelled from the spec, since the strategy
implementations are not in the shown sources. -/
theorem acquire_mutual_exclusion (timeoutInterval now : Nat) (toks : List Nat)
    (hne : toks ≠ []) :
    List.count AcquireResult.held (acquireAll timeoutInterval now toks none).1 = 1 := by
  cases toks with
  | nil => exact absurd rfl hne
  | cons tok toks =>
      have hfirst :
          linkBasedAcquire timeoutInterval tok now none =
            (AcquireResult.held, some { ownerToken := tok, timestamp := now }) := rfl
      simp only [acquireAll, hfirst, acquireAll_locked]
      rw [List.count_cons_self]
      have hzero :
          List.count AcquireResult.held
              (List.replicate toks.length AcquireResult.alreadyLocked) = 0 := by
        rw [List.count_eq_zero]
        intro hmem
        have := List.eq_of_mem_replicate hmem
        exact absurd this (by decide)
      rw [hzero]

/-- Witness for C1: three concurrent attempts on a fresh path yield
exactly one Held. -/
theorem acquire_mutual_exclusion_witness :
    ([1, 2, 3] : List Nat) ≠ [] ∧
      List.count AcquireResult.held (acquireAll 30 5 [1, 2, 3] none).1 = 1 :=
  ⟨by decide, acquire_mutual_exclusion 30 5 [1, 2, 3] (by decide)⟩

/-- C2 counterexample: the claim that a failing refresh tick still re-arms
the next tick is false on the source. At interval 20 with a pending wait
and expiry 100, a tick whose callback raises leaves the chain unarmed:
the catch-all swallows the value but the reschedule code inside the try
block is skipped. -/
theorem failing_tick_not_rearmed :
    (schedulePeriodicExecution 20 TickResult.err false
        { expiresAt := 100, armed := true }).armed = false := rfl

/-- C2 amended: for every refresh tick whose callback fails, the scheduler
catches and discards the error (the step always returns a state normally,
so a per-tick failure never crashes the scheduler), but it does not re-arm
the next tick: the periodic refresh chain terminates at that tick. -/
theorem failing_tick_swallowed_chain_stops (interval : Nat) (timerErr : Bool)
    (s : TimerState) :
    schedulePeriodicExecution interval TickResult.err timerErr s =
      { s with armed := false } := rfl

/-- C3: the code falls off the end of FileLock::create for a lock type
value outside the two declared enumerators — the switch has no default
case and the function returns no value (undefined behaviour) instead of
failing with ConfigurationError as the claim requires. Evaluating the
embedded factory at lock type value 2 produces no lock. -/
theorem create_unrecognized_type_no_value :
    FileLock.create { lockType := 2, timeoutInterval := 30, refreshRate := 20 } = none := rfl

/-- C4: refreshPeriodically is idempotent process-wide: a second call
right after any call is a no-op on the scheduler state, and from a state
where the process-wide flag is not yet set the first call installs
exactly one recurring refresh task, which the subsequent call leaves at
one, so refresh side effects occur at the configured rate and not a
multiple of it. -/
theorem refreshPeriodically_idempotent (s : RefreshSchedulerState)
    (r1 r2 : TickResult) (t1 t2 : Bool) :
    FileLock.refreshPeriodically r2 t2 (FileLock.refreshPeriodically r1 t1 s) =
        FileLock.refreshPeriodically r1 t1 s ∧
      (s.isRefreshing = false →
        (FileLock.refreshPeriodically r1 t1 s).timersInstalled = s.timersInstalled + 1 ∧
          (FileLock.refreshPeriodically r2 t2
              (FileLock.refreshPeriodically r1 t1 s)).timersInstalled =
            s.timersInstalled + 1) := by
  by_cases h : s.isRefreshing
  · constructor
    · simp [FileLock.refreshPeriodically, h]
    · intro hfalse
      rw [h] at hfalse
      exact absurd hfalse (by decide)
  · have hfirst :
        FileLock.refreshPeriodically r1 t1 s =
          { isRefreshing := true
            timersInstalled := s.timersInstalled + 1
            chainArmed :=
              match r1 with
              | TickResult.err => false
              | TickResult.ok => !t1 } := by
      simp [FileLock.refreshPeriodically, h]
    constructor
    · rw [hfirst]; simp [FileLock.refreshPeriodically]
    · intro _
      constructor
      · rw [hfirst]
      · rw [hfirst]; simp [FileLock.refreshPeriodically]

/-- Witness for C4: from a fresh process state, calling
refreshPeriodically twice equals calling it once, and exactly one task
is installed. -/
theorem refreshPeriodically_idempotent_witness :
    FileLock.refreshPeriodically TickResult.ok false
        (FileLock.refreshPeriodically TickResult.ok false
          { isRefreshing := false, timersInstalled := 0, chainArmed := false }) =
      FileLock.refreshPeriodically TickResult.ok false
        { isRefreshing := false, timersInstalled := 0, chainArmed := false } ∧
    (FileLock.refreshPeriodically TickResult.ok false
        { isRefreshing := false, timersInstalled := 0, chainArmed := false }).timersInstalled
      = 0 + 1 := by
  have h := refreshPeriodically_idempotent
    { isRefreshing := false, timersInstalled := 0, chainArmed := false }
    TickResult.ok TickResult.ok false false
  exact ⟨h.1, (h.2 rfl).1⟩

/-- C5 counterexample: the claim that the next tick is scheduled only
interval after the previous one completes (re-arm-after-execute, not
fixed-wall-clock) is false on the source. With interval 2, first tick at
time 0 with initial expiry 2 and a callback of duration 5, the source's
trace differs from the re-arm-after-execute trace, and the second tick
starts before the first tick's end plus the interval: the deadline is the
previous expiry plus the interval (fixed schedule), so the delayed tick
fires immediately on completion. -/
theorem runTicks_not_rearm_after_execute :
    runTicks 2 [5, 0] 0 2 ≠ rearmAfterExecuteTicks 2 [5, 0] 0 ∧
      ¬ List.Chain' (fun a b : Nat × Nat => a.2 + 2 ≤ b.1) (runTicks 2 [5, 0] 0 2) := by
  constructor
  · intro h
    have : ((5 : Nat), (5 : Nat)) = (7, 7) := by
      have h0 : runTicks 2 [5, 0] 0 2 = [(0, 5), (5, 5)] := rfl
      have h1 : rearmAfterExecuteTicks 2 [5, 0] 0 = [(0, 5), (7, 7)] := rfl
      rw [h0, h1] at h
      exact (List.cons.injEq _ _ _ _).mp ((List.cons.injEq _ _ _ _).mp h).2
        |>.1
    exact absurd this (by decide)
  · intro h
    have h0 : runTicks 2 [5, 0] 0 2 = [(0, 5), (5, 5)] := rfl
    rw [h0, List.chain'_cons] at h
    exact absurd h.1 (by decide)

/-- C5 amended: refresh ticks execute sequentially and never overlap —
each wait is armed only after the previous callback completes, so every
tick starts no earlier than the previous one ends — but the re-arm
deadline is the previous expiry plus the interval (a fixed wall-clock
schedule), so a callback that runs longer than the interval makes the
following tick fire immediately on completion rather than interval after
completion. -/
theorem runTicks_sequential (interval : Nat) (ds : List Nat) (s e : Nat) :
    List.Chain' (fun a b : Nat × Nat => a.2 ≤ b.1) (runTicks interval ds s e) :=
  runTicks_chain interval ds s e

/-- C6: FileLock::create dispatches on the process-wide configured lock
type read at the call: whatever the timing configuration, it returns the
advisory strategy when the configured type is LOCKTYPE_ADVISORY and the
link-based strategy when it is LOCKTYPE_LINKBASED. -/
theorem create_dispatches_on_lock_type (timeoutInterval refreshRate : Nat) :
    FileLock.create ⟨LOCKTYPE_ADVISORY, timeoutInterval, refreshRate⟩ =
        some LockImpl.advisoryFileLock ∧
      FileLock.create ⟨LOCKTYPE_LINKBASED, timeoutInterval, refreshRate⟩ =
        some LockImpl.linkBasedFileLock :=
  ⟨rfl, rfl⟩

/-- C7: every call to the static FileLock::refresh invokes both
strategies' refresh logic unconditionally: from any invocation counts,
one call increments both the advisory and the link-based count by one;
the function does not consult the configured lock type at all. -/
theorem refresh_invokes_both_strategies (c : RefreshCounters) :
    (FileLock.refresh c).advisoryRefreshCount = c.advisoryRefreshCount + 1 ∧
      (FileLock.refresh c).linkBasedRefreshCount = c.linkBasedRefreshCount + 1 :=
  ⟨rfl, rfl⟩

/-- C8: the invariant RefreshRate < TimeoutInterval is enforced at
configuration time: every attempted configuration with a refresh rate at
least the timeout interval is rejected with ConfigurationError. Modelled
from the spec, since the configuration constructor is not in the shown
sources. -/
theorem configure_rejects_inverted_rates (lockType refreshRate timeoutInterval : Nat)
    (h : timeoutInterval ≤ refreshRate) :
    configureLockTiming lockType refreshRate timeoutInterval =
      Except.error LockError.configurationError := by
  rw [configureLockTiming, if_neg (Nat.not_lt.mpr h)]

/-- Witness for C8: a refresh rate of 30 with a timeout of 30 is
rejected. -/
theorem configure_rejects_inverted_rates_witness :
    (30 : Nat) ≤ 30 ∧
      configureLockTiming 0 30 30 = Except.error LockError.configurationError :=
  ⟨le_refl 30, configure_rejects_inverted_rates 0 30 30 (le_refl 30)⟩

/-- C9: in a freshly started process, before any configuration call, the
static lock configuration is a 30 second timeout interval and a 20
second refresh rate, with the default lock type advisory, and these
defaults satisfy RefreshRate < TimeoutInterval. -/
theorem default_configuration_values :
    defaultConfig.timeoutInterval = 30 ∧ defaultConfig.refreshRate = 20 ∧
      defaultConfig.lockType = LOCKTYPE_ADVISORY ∧
      defaultConfig.refreshRate < defaultConfig.timeoutInterval :=
  ⟨rfl, rfl, rfl, by decide⟩

/-- C10: the process-wide s_isRefreshing flag is never cleared: from any
state where the flag is set and the periodic chain has stopped (no wait
pending), every sequence of scheduler events — further
refreshPeriodically calls included — leaves the flag set, the chain
stopped and the number of installed tasks unchanged, so periodic
refreshing can never be restarted for the lifetime of the process. -/
theorem refresh_chain_never_restartable (ops : List SchedulerOp)
    (s : RefreshSchedulerState) (hr : s.isRefreshing = true)
    (hc : s.chainArmed = false) :
    (applyOps s ops).isRefreshing = true ∧ (applyOps s ops).chainArmed = false ∧
      (applyOps s ops).timersInstalled = s.timersInstalled := by
  induction ops generalizing s with
  | nil => exact ⟨hr, hc, rfl⟩
  | cons op ops ih =>
      have hfrozen := applyOp_frozen s op hr hc
      have hstep : applyOps s (op :: ops) = applyOps (applyOp s op) ops := rfl
      rw [hstep, hfrozen]
      exact ih s hr hc

/-- Witness for C10: after the chain has stopped in a fresh process that
scheduled once, a renewed refreshPeriodically call followed by a timer
event changes nothing. -/
theorem refresh_chain_never_restartable_witness :
    (applyOps { isRefreshing := true, timersInstalled := 1, chainArmed := false }
        [SchedulerOp.callRefreshPeriodically TickResult.ok false,
          SchedulerOp.timerFires TickResult.ok false]).isRefreshing = true ∧
      (applyOps { isRefreshing := true, timersInstalled := 1, chainArmed := false }
          [SchedulerOp.callRefreshPeriodically TickResult.ok false,
            SchedulerOp.timerFires TickResult.ok false]).chainArmed = false ∧
      (applyOps { isRefreshing := true, timersInstalled := 1, chainArmed := false }
          [SchedulerOp.callRefreshPeriodically TickResult.ok false,
            SchedulerOp.timerFires TickResult.ok false]).timersInstalled = 1 :=
  refresh_chain_never_restartable
    [SchedulerOp.callRefreshPeriodically TickResult.ok false,
      SchedulerOp.timerFires TickResult.ok false]
    { isRefreshing := true, timersInstalled := 1, chainArmed := false } rfl rfl

end RStudioCore
